import Mathlib

/-!
Shallow embedding of the BB84 protocol orchestration core
(`bb84_qiskit.py`): random source interface, sifter, QBER
sampler/verifier, batch accumulation loop and key assembly.

Machine bits are modelled as `Nat` values, numpy arrays as `List Nat`
(boolean masks as `List Bool`), the true division producing the QBER as
exact rational arithmetic, and every Python `raise` as an `Except.error`
carrying the error kind together with the state of the random generator
at the moment the exception is raised.  The numpy random generator and
the quantum channel executors are external collaborators: they are
embedded as an abstract operations record `RNGOps` (deterministic
state-passing functions, as `np.random.default_rng` is for a fixed seed)
and as plain functions from transmission triples to measured bits.
The unbounded `while True` accumulation loop is embedded with explicit
fuel; running out of fuel (`PyError.fuelOut`) represents divergence of
the source loop, which has no round cap.
-/

/-- Error kinds corresponding to the exceptions the Python source can
raise (plus `fuelOut`, the embedding's stand-in for non-termination of
the unbounded accumulation loop).  `negativeDimensions` is numpy's
`ValueError` for a negative array size request. -/
inductive PyError where
  | invalidParameters
  | insufficientSample
  | zeroDivision
  | qberTooHigh
  | badExecutor
  | negativeDimensions
  | insufficientFinalKey
  | fuelOut
deriving DecidableEq, Repr

/-- The result record returned by `BB84` (`BB84Result` in the source). -/
structure BB84Result where
  final_key : List Nat
  qber_sample : ℚ
  total_transmissions : Nat
  sifted_size_before_sample : Nat
  sample_indices : List Nat
  kept_indices : List Nat
deriving DecidableEq, Repr

/-- Abstract interface of `np.random.default_rng`: a deterministic
state-passing generator over a state type `σ`.  `init` embeds
`make_rng(seed)`; `randBits`/`randBases` embed `rand_bits`/`rand_bases`
(an array of the requested length plus the advanced state); `choice s n k`
embeds `rng.choice(n, size=k, replace=False)`. -/
structure RNGOps (σ : Type) where
  init : Option Int → σ
  randBits : σ → Nat → List Nat × σ
  randBases : σ → Nat → List Nat × σ
  choice : σ → Nat → Nat → List Nat × σ

/-- A channel executor: consumes transmission triples
(sender bit, sender basis, receiver basis) and returns the
receiver-measured bits (`run_single_shot_batch` and its runtime
counterpart are two instances). -/
def Executor : Type := List (Nat × Nat × Nat) → List Nat

/-- `sift` from the source: compare the two basis arrays elementwise,
take the indices where they agree (`np.nonzero`), and index the raw-bit
arrays with them. -/
def sift (alice_raw_bits alice_bases bob_bases bob_measured_bits : List Nat) :
    List Nat × List Nat × List Nat :=
  let bases_match := List.zipWith (fun a b => a == b) alice_bases bob_bases
  let matching_indices :=
    (List.range bases_match.length).filter (fun i => bases_match.getD i false)
  (matching_indices.map (fun i => alice_raw_bits.getD i 0),
   matching_indices.map (fun i => bob_measured_bits.getD i 0),
   matching_indices)

/-- Python's `str.lower()`: lowercase the string characterwise. -/
def pyLower (s : String) : List Char := s.data.map Char.toLower

/-- `sample_and_verify` from the source.  Raises (`.error`) on too few
sifted bits, on the `mismatches / sample_size` division when
`sample_size = 0` (Python's `ZeroDivisionError`), and on a sample QBER
strictly above the threshold; otherwise builds the boolean mask
(`np.ones` followed by `mask[sample_indices] = False`), the kept indices
(`np.nonzero(mask)`) and the kept receiver bits.  `Rat.divInt` embeds
Python's true division exactly. -/
def sample_and_verify {σ : Type} (R : RNGOps σ)
    (concatenated_alice_bits concatenated_bob_bits : List Nat)
    (sample_size : Nat) (s0 : σ) (qber_threshold : ℚ) :
    Except (PyError × σ) ((List Nat × ℚ × List Nat × List Nat) × σ) :=
  if concatenated_alice_bits.length < sample_size then
    .error (.insufficientSample, s0)
  else
    let c := R.choice s0 concatenated_alice_bits.length sample_size
    let sample_indices := c.1
    let s1 := c.2
    let mismatched_bits_count :=
      (sample_indices.filter (fun i =>
        !(concatenated_alice_bits.getD i 0 == concatenated_bob_bits.getD i 0))).length
    if sample_size = 0 then .error (.zeroDivision, s1)
    else
      let qber_value : ℚ := Rat.divInt mismatched_bits_count sample_size
      if qber_threshold < qber_value then .error (.qberTooHigh, s1)
      else
        let mask := sample_indices.foldl (fun m i => m.set i false)
          (List.replicate concatenated_alice_bits.length true)
        let kept_indices :=
          (List.range concatenated_alice_bits.length).filter
            (fun i => mask.getD i false)
        let kept_bob_bits := kept_indices.map (fun i => concatenated_bob_bits.getD i 0)
        .ok ((kept_bob_bits, qber_value, sample_indices, kept_indices), s1)

/-- The local-array environment of `sample_and_verify`: the two input
numpy arrays plus the boolean `mask` local.  Used to embed the function
as explicit state passing over its arrays, so that array writes
(`mask[sample_indices] = False`) are visible as store updates. -/
structure NpState where
  concatenated_alice_bits : List Nat
  concatenated_bob_bits : List Nat
  mask : List Bool
deriving DecidableEq, Repr

/-- `sample_and_verify` embedded over an explicit array store: every
numpy array read goes through the store and every array write
(creating `mask` with `np.ones` and the assignment
`mask[sample_indices] = False`) is a store update.  The final store is
returned alongside the result, in the raising branches as well. -/
def sample_and_verify_st {σ : Type} (R : RNGOps σ)
    (sample_size : Nat) (s0 : σ) (qber_threshold : ℚ) (st : NpState) :
    Except PyError (List Nat × ℚ × List Nat × List Nat) × NpState :=
  if st.concatenated_alice_bits.length < sample_size then
    (.error .insufficientSample, st)
  else
    let c := R.choice s0 st.concatenated_alice_bits.length sample_size
    let sample_indices := c.1
    let mismatched_bits_count :=
      (sample_indices.filter (fun i =>
        !(st.concatenated_alice_bits.getD i 0 == st.concatenated_bob_bits.getD i 0))).length
    if sample_size = 0 then (.error .zeroDivision, st)
    else
      let qber_value : ℚ := Rat.divInt mismatched_bits_count sample_size
      if qber_threshold < qber_value then (.error .qberTooHigh, st)
      else
        let st1 := { st with mask := List.replicate st.concatenated_alice_bits.length true }
        let st2 := { st1 with mask := sample_indices.foldl (fun m i => m.set i false) st1.mask }
        let kept_indices :=
          (List.range st2.concatenated_alice_bits.length).filter
            (fun i => st2.mask.getD i false)
        let kept_bob_bits := kept_indices.map (fun i => st2.concatenated_bob_bits.getD i 0)
        (.ok (kept_bob_bits, qber_value, sample_indices, kept_indices), st2)

/-- One-step dispatch on the executor tag, as in the source's
`if executor.lower() == "aer" ... elif ... == "runtime" ... else raise`:
`none` means the `ValueError` branch. -/
def dispatchExecutor (tag : String) (aerEx rtEx : Executor)
    (triples : List (Nat × Nat × Nat)) : Option (List Nat) :=
  if pyLower tag = "aer".data then some (aerEx triples)
  else if pyLower tag = "runtime".data then some (rtEx triples)
  else none

/-- The `while True` accumulation loop of `BB84`, with explicit fuel.
Each iteration draws the raw bits and both basis arrays, builds the
transmission triples, dispatches on the executor tag, sifts, appends a
non-empty sifted batch, and stops once the accumulated sifted total
reaches `need = final_key_size + sample_size`. -/
def bb84Loop {σ : Type} (R : RNGOps σ) (tag : String) (aerEx rtEx : Executor)
    (batch_size : Int) (need : Nat) :
    Nat → σ → List (List Nat) → List (List Nat) → Nat →
    Except (PyError × σ) ((List (List Nat) × List (List Nat) × Nat) × σ)
  | 0, s, _, _, _ => .error (.fuelOut, s)
  | fuel + 1, s, accA, accB, total =>
    if batch_size < 0 then .error (.negativeDimensions, s)
    else
      let m := batch_size.toNat
      let r1 := R.randBits s m
      let alice_raw_bits := r1.1
      let r2 := R.randBases r1.2 m
      let alice_bases := r2.1
      let r3 := R.randBases r2.2 m
      let bob_bases := r3.1
      let s3 := r3.2
      let triples := (List.range m).map (fun i =>
        (alice_raw_bits.getD i 0, alice_bases.getD i 0, bob_bases.getD i 0))
      match dispatchExecutor tag aerEx rtEx triples with
      | none => .error (.badExecutor, s3)
      | some bob_measured_bits =>
        let total' := total + m
        let sifted := sift alice_raw_bits alice_bases bob_bases bob_measured_bits
        let accA' := if sifted.1.length ≠ 0 then accA ++ [sifted.1] else accA
        let accB' := if sifted.1.length ≠ 0 then accB ++ [sifted.2.1] else accB
        if need ≤ (accA'.map List.length).sum then .ok ((accA', accB', total'), s3)
        else bb84Loop R tag aerEx rtEx batch_size need fuel s3 accA' accB' total'

/-- The tail of `BB84` after the accumulation loop: run
`sample_and_verify` on the concatenated sifted sequences, enforce the
final-key-length guard, truncate, and package the `BB84Result`. -/
def bb84Finish {σ : Type} (R : RNGOps σ) (n sample_size : Nat) (thr : ℚ)
    (concA concB : List Nat) (total : Nat) (s : σ) :
    Except (PyError × σ) (BB84Result × σ) :=
  match sample_and_verify R concA concB sample_size s thr with
  | .error e => .error e
  | .ok ((bob_final_bits, qber_value, sample_indices, kept_indices), s') =>
    if bob_final_bits.length < n then .error (.insufficientFinalKey, s')
    else
      .ok ({ final_key := bob_final_bits.take n
             qber_sample := qber_value
             total_transmissions := total
             sifted_size_before_sample := concA.length
             sample_indices := sample_indices
             kept_indices := kept_indices.take n }, s')

/-- `BB84` from the source: parameter validation, then the accumulation
loop, then concatenation (`List.join` embeds `np.concatenate`, with the
empty-list case folded in) and verification/assembly. -/
def BB84 {σ : Type} (R : RNGOps σ) (final_key_size sample_size : Int)
    (seed : Option Int) (batch_size : Int) (executor : String)
    (aerEx rtEx : Executor) (qber_threshold : ℚ) (fuel : Nat) :
    Except (PyError × σ) (BB84Result × σ) :=
  if final_key_size ≤ 0 ∨ sample_size < 0 then
    .error (.invalidParameters, R.init seed)
  else
    match bb84Loop R executor aerEx rtEx batch_size
        (final_key_size.toNat + sample_size.toNat) fuel (R.init seed) [] [] 0 with
    | .error e => .error e
    | .ok ((accA, accB, total), s') =>
      bb84Finish R final_key_size.toNat sample_size.toNat qber_threshold
        accA.flatten accB.flatten total s'

/-- The error kind of a run, if it raised. -/
def errOf {σ α : Type} : Except (PyError × σ) α → Option PyError
  | .error e => some e.1
  | .ok _ => none

/-- The generator state at the moment a run raised, if it raised. -/
def errStateOf {σ α : Type} : Except (PyError × σ) α → Option σ
  | .error e => some e.2
  | .ok _ => none

/-- The value of a successful run, if it succeeded. -/
def okOf {σ α : Type} : Except (PyError × σ) (α × σ) → Option α
  | .ok r => some r.1
  | .error _ => none

/-- A concrete deterministic instance of the random-source interface
used for witnesses and counterexamples: the state is a call counter, bit
and basis draws are all-zero arrays, and `choice s n k` returns the first
`k` indices (a legitimate draw-without-replacement outcome). -/
def constRNG : RNGOps Nat where
  init := fun _ => 0
  randBits := fun s m => (List.replicate m 0, s + m)
  randBases := fun s m => (List.replicate m 0, s + m)
  choice := fun s _ k => (List.range k, s + k)

/-- A concrete noiseless executor: when the two bases agree the receiver
measures the sender's bit, otherwise it measures 0. -/
def noiselessEx : Executor :=
  fun ts => ts.map (fun t => if t.2.1 = t.2.2 then t.1 else 0)

/-! ### Helper lemmas about the boolean mask -/

theorem getD_set_self_false (m : List Bool) (j : Nat) :
    (m.set j false).getD j false = false := by
  rcases Nat.lt_or_ge j m.length with h | h
  · simp [List.getD_eq_getElem?_getD, List.getElem?_set_self (by simpa using h)]
  · have hnone : (m.set j false)[j]? = none := List.getElem?_eq_none (by simpa using h)
    simp [List.getD_eq_getElem?_getD, hnone]

theorem getD_set_ne (m : List Bool) (i j : Nat) (a : Bool) (h : i ≠ j) :
    (m.set i a).getD j false = m.getD j false := by
  simp [List.getD_eq_getElem?_getD, List.getElem?_set_ne h]

theorem length_foldl_set (l : List Nat) (m : List Bool) :
    (l.foldl (fun m i => m.set i false) m).length = m.length := by
  induction l generalizing m with
  | nil => rfl
  | cons i l ih => simpa using ih (m.set i false)

theorem getD_foldl_set (l : List Nat) (m : List Bool) (j : Nat) :
    (l.foldl (fun m i => m.set i false) m).getD j false
      = if j ∈ l then false else m.getD j false := by
  induction l generalizing m with
  | nil => simp
  | cons i l ih =>
    by_cases hj : j = i
    · subst hj
      rw [List.foldl_cons, ih]
      have hset : (m.set j false).getD j false = false := getD_set_self_false m j
      simp only [hset, List.mem_cons, true_or, if_true]
      by_cases hl : j ∈ l <;> simp [hl]
    · rw [List.foldl_cons, ih, getD_set_ne m i j false (fun h => hj h.symm)]
      simp [List.mem_cons, hj]

theorem getD_replicate_true (len j : Nat) :
    (List.replicate len true).getD j false = decide (j < len) := by
  rcases Nat.lt_or_ge j len with h | h
  · have hsome : (List.replicate len true)[j]? = some true := by
      rw [List.getElem?_eq_getElem (by simpa using h)]
      simp
    simp [List.getD_eq_getElem?_getD, hsome, h]
  · have hnone : (List.replicate len true)[j]? = none :=
      List.getElem?_eq_none (by simpa using h)
    simp [List.getD_eq_getElem?_getD, hnone, Nat.not_lt.mpr h]

theorem mem_mask_kept_iff (len : Nat) (si : List Nat) (j : Nat) :
    (j ∈ (List.range len).filter (fun i =>
        (si.foldl (fun m i => m.set i false) (List.replicate len true)).getD i false))
      ↔ j < len ∧ j ∉ si := by
  simp only [List.mem_filter, List.mem_range, getD_foldl_set, getD_replicate_true]
  by_cases hs : j ∈ si <;> simp [hs]

/-! ### Helper lemmas about `sift` -/

theorem sift_matching_eq (ab bb : List Nat) (hB : bb.length = ab.length) :
    (List.range (List.zipWith (fun a b => a == b) ab bb).length).filter
       (fun i => (List.zipWith (fun a b => a == b) ab bb).getD i false)
      = (List.range ab.length).filter (fun i => ab.getD i 0 == bb.getD i 0) := by
  have hlen : (List.zipWith (fun a b : Nat => a == b) ab bb).length = ab.length := by
    simp [hB]
  rw [hlen]
  apply List.filter_congr
  intro i hi
  have hi' : i < ab.length := List.mem_range.mp hi
  have hib : i < bb.length := by omega
  have hiz : i < (List.zipWith (fun a b : Nat => a == b) ab bb).length := by omega
  rw [List.getD_eq_getElem _ _ hiz, List.getElem_zipWith,
    List.getD_eq_getElem _ _ hi', List.getD_eq_getElem _ _ hib]

theorem getD_map_nat (f : Nat → Nat) (l : List Nat) (j : Nat) (h : j < l.length) :
    (l.map f).getD j 0 = f (l.getD j 0) := by
  rw [List.getD_eq_getElem _ _ (by simpa using h), List.getElem_map,
    List.getD_eq_getElem _ _ h]

/-- C5: `sift`, applied to four equal-length sequences, returns sender and
receiver subsequences of equal length, equal to the number of positions
where the two basis sequences agree; the returned index list is strictly
increasing and contains exactly the agreeing positions; and the sifted
values are the original values at the returned positions, in order.
(`sift` is a total function: it never fails, and an empty result is a
valid return value.) -/
theorem sift_correctness (a ab bb bm : List Nat)
    (hA : a.length = ab.length) (hB : bb.length = ab.length)
    (hM : bm.length = ab.length) :
    (sift a ab bb bm).1.length = (sift a ab bb bm).2.2.length ∧
    (sift a ab bb bm).2.1.length = (sift a ab bb bm).2.2.length ∧
    (sift a ab bb bm).2.2.length
      = (List.range ab.length).countP (fun i => ab.getD i 0 == bb.getD i 0) ∧
    List.Pairwise (· < ·) (sift a ab bb bm).2.2 ∧
    (∀ i, i ∈ (sift a ab bb bm).2.2 ↔
      i < ab.length ∧ ab.getD i 0 = bb.getD i 0) ∧
    (∀ j, j < (sift a ab bb bm).2.2.length →
      (sift a ab bb bm).1.getD j 0 = a.getD ((sift a ab bb bm).2.2.getD j 0) 0 ∧
      (sift a ab bb bm).2.1.getD j 0 = bm.getD ((sift a ab bb bm).2.2.getD j 0) 0) := by
  have hmi : (sift a ab bb bm).2.2
      = (List.range ab.length).filter (fun i => ab.getD i 0 == bb.getD i 0) :=
    sift_matching_eq ab bb hB
  have h1 : (sift a ab bb bm).1
      = (sift a ab bb bm).2.2.map (fun i => a.getD i 0) := rfl
  have h2 : (sift a ab bb bm).2.1
      = (sift a ab bb bm).2.2.map (fun i => bm.getD i 0) := rfl
  refine ⟨by rw [h1]; simp, by rw [h2]; simp, ?_, ?_, ?_, ?_⟩
  · rw [hmi, List.countP_eq_length_filter]
  · rw [hmi]
    exact (List.pairwise_lt_range _).filter _
  · intro i
    rw [hmi]
    simp [List.mem_filter, List.mem_range, and_comm]
  · intro j hj
    constructor
    · rw [h1, getD_map_nat _ _ _ hj]
    · rw [h2, getD_map_nat _ _ _ hj]

/-- Witness for C5 at concrete equal-length inputs. -/
theorem sift_correctness_witness :
    [1, 0, 1, 1].length = [0, 1, 1, 0].length ∧
    ([0, 0, 1, 1] : List Nat).length = [0, 1, 1, 0].length ∧
    ([1, 1, 1, 0] : List Nat).length = [0, 1, 1, 0].length ∧
    ((sift [1, 0, 1, 1] [0, 1, 1, 0] [0, 0, 1, 1] [1, 1, 1, 0]).1.length
        = (sift [1, 0, 1, 1] [0, 1, 1, 0] [0, 0, 1, 1] [1, 1, 1, 0]).2.2.length ∧
      (sift [1, 0, 1, 1] [0, 1, 1, 0] [0, 0, 1, 1] [1, 1, 1, 0]).2.1.length
        = (sift [1, 0, 1, 1] [0, 1, 1, 0] [0, 0, 1, 1] [1, 1, 1, 0]).2.2.length ∧
      (sift [1, 0, 1, 1] [0, 1, 1, 0] [0, 0, 1, 1] [1, 1, 1, 0]).2.2.length
        = (List.range ([0, 1, 1, 0] : List Nat).length).countP
            (fun i => ([0, 1, 1, 0] : List Nat).getD i 0 == ([0, 0, 1, 1] : List Nat).getD i 0) ∧
      List.Pairwise (· < ·) (sift [1, 0, 1, 1] [0, 1, 1, 0] [0, 0, 1, 1] [1, 1, 1, 0]).2.2 ∧
      (∀ i, i ∈ (sift [1, 0, 1, 1] [0, 1, 1, 0] [0, 0, 1, 1] [1, 1, 1, 0]).2.2 ↔
        i < ([0, 1, 1, 0] : List Nat).length ∧
          ([0, 1, 1, 0] : List Nat).getD i 0 = ([0, 0, 1, 1] : List Nat).getD i 0) ∧
      (∀ j, j < (sift [1, 0, 1, 1] [0, 1, 1, 0] [0, 0, 1, 1] [1, 1, 1, 0]).2.2.length →
        (sift [1, 0, 1, 1] [0, 1, 1, 0] [0, 0, 1, 1] [1, 1, 1, 0]).1.getD j 0
          = ([1, 0, 1, 1] : List Nat).getD
              ((sift [1, 0, 1, 1] [0, 1, 1, 0] [0, 0, 1, 1] [1, 1, 1, 0]).2.2.getD j 0) 0 ∧
        (sift [1, 0, 1, 1] [0, 1, 1, 0] [0, 0, 1, 1] [1, 1, 1, 0]).2.1.getD j 0
          = ([1, 1, 1, 0] : List Nat).getD
              ((sift [1, 0, 1, 1] [0, 1, 1, 0] [0, 0, 1, 1] [1, 1, 1, 0]).2.2.getD j 0) 0)) :=
  ⟨by decide, by decide, by decide,
    sift_correctness [1, 0, 1, 1] [0, 1, 1, 0] [0, 0, 1, 1] [1, 1, 1, 0]
      (by decide) (by decide) (by decide)⟩

/-! ### Helper lemmas about `sample_and_verify` -/

theorem sample_and_verify_ok {σ : Type} {R : RNGOps σ} {a b : List Nat}
    {sS : Nat} {s0 : σ} {thr : ℚ} {kept : List Nat} {q : ℚ} {si ki : List Nat}
    {s1 : σ} (h : sample_and_verify R a b sS s0 thr = .ok ((kept, q, si, ki), s1)) :
    si = (R.choice s0 a.length sS).1 ∧ s1 = (R.choice s0 a.length sS).2 ∧
    ¬ a.length < sS ∧ sS ≠ 0 ∧
    q = Rat.divInt ((si.filter (fun i => !(a.getD i 0 == b.getD i 0))).length) sS ∧
    ¬ thr < Rat.divInt
        (((R.choice s0 a.length sS).1.filter
            (fun i => !(a.getD i 0 == b.getD i 0))).length) sS ∧
    ki = (List.range a.length).filter (fun i =>
        ((R.choice s0 a.length sS).1.foldl (fun m i => m.set i false)
          (List.replicate a.length true)).getD i false) ∧
    kept = ki.map (fun i => b.getD i 0) := by
  by_cases h1 : a.length < sS
  · simp [sample_and_verify, h1] at h
  · by_cases h2 : sS = 0
    · simp [sample_and_verify, h1, h2] at h
    · by_cases h3 : thr < Rat.divInt
          ((((R.choice s0 a.length sS).1.filter
              (fun i => !(a.getD i 0 == b.getD i 0))).length : Int)) ((sS : Int))
      · simp only [sample_and_verify] at h
        rw [if_neg h1, if_neg h2, if_pos h3] at h
        exact absurd h (by simp)
      · simp only [sample_and_verify] at h
        rw [if_neg h1, if_neg h2, if_neg h3] at h
        simp only [Except.ok.injEq, Prod.mk.injEq] at h
        obtain ⟨⟨hk, hq, hsi, hki⟩, hs1⟩ := h
        subst hsi
        subst hki
        subst hk
        subst hq
        subst hs1
        exact ⟨rfl, rfl, h1, h2, rfl, h3, rfl, rfl⟩

theorem sample_and_verify_err_kinds {σ : Type} {R : RNGOps σ} {a b : List Nat}
    {sS : Nat} {s0 : σ} {thr : ℚ} {e : PyError} {s1 : σ}
    (h : sample_and_verify R a b sS s0 thr = .error (e, s1)) :
    e = .insufficientSample ∨ e = .zeroDivision ∨ e = .qberTooHigh := by
  by_cases h1 : a.length < sS
  · simp only [sample_and_verify] at h
    rw [if_pos h1] at h
    simp only [Except.error.injEq, Prod.mk.injEq] at h
    exact Or.inl h.1.symm
  · by_cases h2 : sS = 0
    · simp only [sample_and_verify] at h
      rw [if_neg h1, if_pos h2] at h
      simp only [Except.error.injEq, Prod.mk.injEq] at h
      exact Or.inr (Or.inl h.1.symm)
    · by_cases h3 : thr < Rat.divInt
          ((((R.choice s0 a.length sS).1.filter
              (fun i => !(a.getD i 0 == b.getD i 0))).length : Int)) ((sS : Int))
      · simp only [sample_and_verify] at h
        rw [if_neg h1, if_neg h2, if_pos h3] at h
        simp only [Except.error.injEq, Prod.mk.injEq] at h
        exact Or.inr (Or.inr h.1.symm)
      · simp only [sample_and_verify] at h
        rw [if_neg h1, if_neg h2, if_neg h3] at h
        exact absurd h (by simp)

theorem sample_and_verify_insufficient_iff {σ : Type} (R : RNGOps σ)
    (a b : List Nat) (sS : Nat) (s0 : σ) (thr : ℚ) :
    errOf (sample_and_verify R a b sS s0 thr) = some .insufficientSample
      ↔ a.length < sS := by
  by_cases h1 : a.length < sS
  · refine ⟨fun _ => h1, fun _ => ?_⟩
    simp only [sample_and_verify]
    rw [if_pos h1]
    rfl
  · refine ⟨fun h => ?_, fun h => absurd h h1⟩
    exfalso
    simp only [sample_and_verify] at h
    rw [if_neg h1] at h
    by_cases h2 : sS = 0
    · rw [if_pos h2] at h
      simp [errOf] at h
    · rw [if_neg h2] at h
      by_cases h3 : thr < Rat.divInt
          ((((R.choice s0 a.length sS).1.filter
              (fun i => !(a.getD i 0 == b.getD i 0))).length : Int)) ((sS : Int))
      · rw [if_pos h3] at h
        simp [errOf] at h
      · rw [if_neg h3] at h
        simp [errOf] at h

/-- C10: `sample_and_verify` never mutates its input bit sequences: over
the explicit array store, on every path (the three raising paths and the
successful path) the sender and receiver sifted arrays in the final
store are unchanged; only the fresh `mask` array is written. -/
theorem sample_and_verify_preserves_inputs {σ : Type} (R : RNGOps σ)
    (sS : Nat) (s0 : σ) (thr : ℚ) (st : NpState) :
    ((sample_and_verify_st R sS s0 thr st).2).concatenated_alice_bits
        = st.concatenated_alice_bits ∧
    ((sample_and_verify_st R sS s0 thr st).2).concatenated_bob_bits
        = st.concatenated_bob_bits := by
  by_cases h1 : st.concatenated_alice_bits.length < sS
  · simp only [sample_and_verify_st]
    rw [if_pos h1]
    exact ⟨rfl, rfl⟩
  · by_cases h2 : sS = 0
    · simp only [sample_and_verify_st]
      rw [if_neg h1, if_pos h2]
      exact ⟨rfl, rfl⟩
    · by_cases h3 : thr < Rat.divInt
          ((((R.choice s0 st.concatenated_alice_bits.length sS).1.filter
              (fun i => !(st.concatenated_alice_bits.getD i 0
                == st.concatenated_bob_bits.getD i 0))).length : Int)) ((sS : Int))
      · simp only [sample_and_verify_st]
        rw [if_neg h1, if_neg h2, if_pos h3]
        exact ⟨rfl, rfl⟩
      · simp only [sample_and_verify_st]
        rw [if_neg h1, if_neg h2, if_neg h3]
        exact ⟨rfl, rfl⟩

/-- C6: with enough sifted material and a nonzero sample size, the
verifier raises the channel-error-rate (`qberTooHigh`) error exactly
when the sample QBER is strictly above the threshold; a sample QBER less
than or equal to the threshold (equality included) yields a successful
return; and when the verifier raises it, the `BB84` tail propagates
exactly that error, so no result (and hence no key material of any kind)
is produced. -/
theorem qber_threshold_enforcement {σ : Type} (R : RNGOps σ)
    (a b : List Nat) (sS : Nat) (s0 : σ) (thr : ℚ)
    (hs : sS ≤ a.length) (h0 : sS ≠ 0) :
    (errOf (sample_and_verify R a b sS s0 thr) = some .qberTooHigh
       ↔ thr < Rat.divInt
            (((R.choice s0 a.length sS).1.filter
               (fun i => !(a.getD i 0 == b.getD i 0))).length) sS) ∧
    (Rat.divInt (((R.choice s0 a.length sS).1.filter
               (fun i => !(a.getD i 0 == b.getD i 0))).length) sS ≤ thr →
       ∃ v s1, sample_and_verify R a b sS s0 thr = .ok (v, s1)) ∧
    (∀ (n total : Nat),
      errOf (sample_and_verify R a b sS s0 thr) = some .qberTooHigh →
      errOf (bb84Finish R n sS thr a b total s0) = some .qberTooHigh) := by
  have h1 : ¬ a.length < sS := Nat.not_lt.mpr hs
  refine ⟨?_, ?_, ?_⟩
  · by_cases h3 : thr < Rat.divInt
        ((((R.choice s0 a.length sS).1.filter
            (fun i => !(a.getD i 0 == b.getD i 0))).length : Int)) ((sS : Int))
    · simp only [sample_and_verify]
      rw [if_neg h1, if_neg h0, if_pos h3]
      simpa [errOf] using h3
    · simp only [sample_and_verify]
      rw [if_neg h1, if_neg h0, if_neg h3]
      simpa [errOf] using h3
  · intro hle
    have h3 : ¬ thr < Rat.divInt
        ((((R.choice s0 a.length sS).1.filter
            (fun i => !(a.getD i 0 == b.getD i 0))).length : Int)) ((sS : Int)) :=
      not_lt.mpr hle
    refine ⟨(((List.range a.length).filter (fun i =>
        ((R.choice s0 a.length sS).1.foldl (fun m i => m.set i false)
          (List.replicate a.length true)).getD i false)).map (fun i => b.getD i 0),
      Rat.divInt (((R.choice s0 a.length sS).1.filter
          (fun i => !(a.getD i 0 == b.getD i 0))).length) sS,
      (R.choice s0 a.length sS).1,
      (List.range a.length).filter (fun i =>
        ((R.choice s0 a.length sS).1.foldl (fun m i => m.set i false)
          (List.replicate a.length true)).getD i false)),
      (R.choice s0 a.length sS).2, ?_⟩
    simp only [sample_and_verify]
    rw [if_neg h1, if_neg h0, if_neg h3]
  · intro n total h
    rcases he : sample_and_verify R a b sS s0 thr with e | v
    · obtain ⟨e1, s1⟩ := e
      rw [he] at h
      simp only [errOf, Option.some.injEq] at h
      subst h
      simp only [bb84Finish, he, errOf]
    · rw [he] at h
      simp [errOf] at h

/-! ### Helper lemmas about the accumulation loop -/

theorem bb84Loop_ok_sum {σ : Type} (R : RNGOps σ) (tag : String)
    (aerEx rtEx : Executor) (batch : Int) (need : Nat) :
    ∀ (fuel : Nat) (s : σ) (accA accB : List (List Nat)) (total : Nat)
      (accA' accB' : List (List Nat)) (total' : Nat) (s' : σ),
      bb84Loop R tag aerEx rtEx batch need fuel s accA accB total
        = .ok ((accA', accB', total'), s') →
      need ≤ (accA'.map List.length).sum := by
  intro fuel
  induction fuel with
  | zero =>
    intro s accA accB total accA' accB' total' s' h
    simp [bb84Loop] at h
  | succ fuel ih =>
    intro s accA accB total accA' accB' total' s' h
    simp only [bb84Loop] at h
    split at h
    · simp at h
    · split at h
      · simp at h
      · split at h
        all_goals split at h
        all_goals
          first
            | (rename_i hsum
               simp only [Except.ok.injEq, Prod.mk.injEq] at h
               obtain ⟨⟨hA, hB, hT⟩, hs⟩ := h
               subst hA
               simpa using hsum)
            | exact ih _ _ _ _ _ _ _ _ h

theorem bb84Loop_err_kinds {σ : Type} (R : RNGOps σ) (tag : String)
    (aerEx rtEx : Executor) (batch : Int) (need : Nat) :
    ∀ (fuel : Nat) (s : σ) (accA accB : List (List Nat)) (total : Nat)
      (e : PyError) (s' : σ),
      bb84Loop R tag aerEx rtEx batch need fuel s accA accB total
        = .error (e, s') →
      e = .fuelOut ∨ e = .negativeDimensions ∨ e = .badExecutor := by
  intro fuel
  induction fuel with
  | zero =>
    intro s accA accB total e s' h
    simp only [bb84Loop, Except.error.injEq, Prod.mk.injEq] at h
    exact Or.inl h.1.symm
  | succ fuel ih =>
    intro s accA accB total e s' h
    simp only [bb84Loop] at h
    split at h
    · simp only [Except.error.injEq, Prod.mk.injEq] at h
      exact Or.inr (Or.inl h.1.symm)
    · split at h
      · simp only [Except.error.injEq, Prod.mk.injEq] at h
        exact Or.inr (Or.inr h.1.symm)
      · split at h
        all_goals split at h
        all_goals
          first
            | simp at h
            | exact ih _ _ _ _ _ _ h

/-! ### Helper lemmas about the `BB84` tail -/

theorem bb84Finish_err_kinds {σ : Type} {R : RNGOps σ} {n sS : Nat} {thr : ℚ}
    {cA cB : List Nat} {total : Nat} {s : σ} {e : PyError} {s' : σ}
    (h : bb84Finish R n sS thr cA cB total s = .error (e, s')) :
    e = .insufficientSample ∨ e = .zeroDivision ∨ e = .qberTooHigh
      ∨ e = .insufficientFinalKey := by
  unfold bb84Finish at h
  split at h
  · rename_i ep hv
    simp only [Except.error.injEq] at h
    subst h
    rcases sample_and_verify_err_kinds hv with h' | h' | h' <;> simp [h']
  · split at h
    · simp only [Except.error.injEq, Prod.mk.injEq] at h
      exact Or.inr (Or.inr (Or.inr h.1.symm))
    · simp at h

theorem bb84Finish_not_insufficient {σ : Type} {R : RNGOps σ} {n sS : Nat}
    {thr : ℚ} {cA cB : List Nat} {total : Nat} {s : σ} {e : PyError} {s' : σ}
    (hlen : sS ≤ cA.length)
    (h : bb84Finish R n sS thr cA cB total s = .error (e, s')) :
    e ≠ .insufficientSample := by
  intro he
  subst he
  unfold bb84Finish at h
  split at h
  · rename_i ep hv
    simp only [Except.error.injEq] at h
    subst h
    have : errOf (sample_and_verify R cA cB sS s thr)
        = some PyError.insufficientSample := by
      rw [hv]
      rfl
    have := (sample_and_verify_insufficient_iff R cA cB sS s thr).mp this
    omega
  · split at h
    · simp only [Except.error.injEq, Prod.mk.injEq] at h
      exact absurd h.1.symm (by simp)
    · simp at h

/-- C7: the verifier raises the insufficient-material error exactly when
the sifted sequences are shorter than the sample size; and this branch
is unreachable from the `BB84` orchestrator, whose accumulation loop
only hands material to the verifier once the accumulated sifted count is
at least `final_key_size + sample_size`; hence no `BB84` run, with any
random source, executor pair, parameters or fuel, ever surfaces the
insufficient-sample error. -/
theorem verify_insufficient_sample_unreachable :
    (∀ {σ : Type} (R : RNGOps σ) (a b : List Nat) (sS : Nat) (s0 : σ) (thr : ℚ),
      errOf (sample_and_verify R a b sS s0 thr) = some .insufficientSample
        ↔ a.length < sS) ∧
    (∀ {σ : Type} (R : RNGOps σ) (n s : Int) (seed : Option Int) (batch : Int)
      (tag : String) (aerEx rtEx : Executor) (thr : ℚ) (fuel : Nat),
      errOf (BB84 R n s seed batch tag aerEx rtEx thr fuel)
        ≠ some .insufficientSample) := by
  constructor
  · intro σ R a b sS s0 thr
    exact sample_and_verify_insufficient_iff R a b sS s0 thr
  · intro σ R n s seed batch tag aerEx rtEx thr fuel hcon
    unfold BB84 at hcon
    split at hcon
    · simp [errOf] at hcon
    · split at hcon
      · rename_i ep hl
        obtain ⟨e1, s1⟩ := ep
        rcases bb84Loop_err_kinds R tag aerEx rtEx batch _ _ _ _ _ _ _ _ hl
          with h' | h' | h' <;> simp [errOf, h'] at hcon
      · rename_i accA accB total s' hl
        have hsum := bb84Loop_ok_sum R tag aerEx rtEx batch _ _ _ _ _ _ _ _ _ _ hl
        have hlen : s.toNat ≤ accA.flatten.length := by
          rw [List.length_flatten]
          omega
        rcases hf : bb84Finish R n.toNat s.toNat thr accA.flatten accB.flatten
            total s' with ⟨e2, s2⟩ | v2
        · rw [hf] at hcon
          simp only [errOf, Option.some.injEq] at hcon
          exact bb84Finish_not_insufficient hlen hf hcon
        · rw [hf] at hcon
          simp [errOf] at hcon

/-- C1: whenever `BB84` returns a result, its `final_key` and its
`kept_indices` both have length exactly `final_key_size`; and when the
verifier succeeds but leaves fewer kept bits than `final_key_size`, the
`BB84` tail raises the insufficient-final-key-material error instead of
returning a shorter key. -/
theorem bb84_key_length_invariant :
    (∀ {σ : Type} (R : RNGOps σ) (n s : Int) (seed : Option Int) (batch : Int)
      (tag : String) (aerEx rtEx : Executor) (thr : ℚ) (fuel : Nat)
      (res : BB84Result),
      okOf (BB84 R n s seed batch tag aerEx rtEx thr fuel) = some res →
      res.final_key.length = n.toNat ∧ res.kept_indices.length = n.toNat) ∧
    (∀ {σ : Type} (R : RNGOps σ) (n sS : Nat) (thr : ℚ) (cA cB : List Nat)
      (total : Nat) (s0 : σ) (kept : List Nat) (q : ℚ) (si ki : List Nat)
      (s1 : σ),
      sample_and_verify R cA cB sS s0 thr = .ok ((kept, q, si, ki), s1) →
      kept.length < n →
      bb84Finish R n sS thr cA cB total s0
        = .error (.insufficientFinalKey, s1)) := by
  constructor
  · intro σ R n s seed batch tag aerEx rtEx thr fuel res h
    unfold BB84 at h
    split at h
    · simp [okOf] at h
    · split at h
      · simp [okOf] at h
      · rename_i accA accB total s' hl
        unfold bb84Finish at h
        split at h
        · simp [okOf] at h
        · rename_i kept q si ki s1 hv
          split at h
          · simp [okOf] at h
          · rename_i hklen
            simp only [okOf, Option.some.injEq] at h
            subst h
            have hok := sample_and_verify_ok hv
            have hkk : kept.length = ki.length := by
              rw [hok.2.2.2.2.2.2.2]
              simp
            constructor
            · simp only [List.length_take]
              omega
            · simp only [List.length_take]
              omega
  · intro σ R n sS thr cA cB total s0 kept q si ki s1 hv hlt
    simp only [bb84Finish, hv]
    rw [if_pos hlt]

/-- Witness for C1: a concrete successful run (final key and kept
indices both of length 2 for `final_key_size = 2`), and a concrete
verifier success with 1 kept bit for `final_key_size = 5` on which the
tail raises the insufficient-final-key-material error. -/
theorem bb84_key_length_invariant_witness :
    ((⟨[0, 0], 0, 4, 4, [0], [1, 2]⟩ : BB84Result).final_key.length
        = (2 : Int).toNat ∧
      (⟨[0, 0], 0, 4, 4, [0], [1, 2]⟩ : BB84Result).kept_indices.length
        = (2 : Int).toNat) ∧
    bb84Finish constRNG 5 1 (mkRat 2 100) [0, 0] [0, 0] 9 0
      = .error (.insufficientFinalKey, 1) :=
  ⟨bb84_key_length_invariant.1 constRNG 2 1 none 4 "aer" noiselessEx noiselessEx
      (mkRat 2 100) 1 (⟨[0, 0], 0, 4, 4, [0], [1, 2]⟩ : BB84Result) (by decide),
    bb84_key_length_invariant.2 constRNG 5 1 (mkRat 2 100) [0, 0] [0, 0] 9 0
      [0] (Rat.divInt 0 1) [0] [1] 1 (by rfl) (by decide)⟩

/-- C4 counterexample: a concrete successful run (`final_key_size = 2`,
`sample_size = 1`, one batch of 4, all bases matching) in which the
Result carries `sample_indices = [0]` and `kept_indices = [1, 2]`
(truncated to the key length), whose union does not cover the full range
`[0, sifted_size_before_sample) = [0, 4)`: index 3 is in neither list. -/
theorem bb84_result_partition_cex :
    okOf (BB84 constRNG 2 1 none 4 "aer" noiselessEx noiselessEx
        (mkRat 2 100) 1)
      = some (⟨[0, 0], 0, 4, 4, [0], [1, 2]⟩ : BB84Result) ∧
    ¬ (∀ i, i ∈ List.range 4 → i ∈ ([0] : List Nat) ∨ i ∈ ([1, 2] : List Nat)) :=
  ⟨by decide, by decide⟩

/-- C4 (amended): the verifier's sample and kept index lists are
disjoint and their union is exactly the full range
`[0, sifted_size_before_sample)`; for the index lists carried in the
Result, disjointness and containment in the range still hold, but the
Result's `kept_indices` is truncated to `final_key_size`, so the union
equality can fail there (it holds only when the accumulated sifted count
equals `final_key_size + sample_size`). -/
theorem bb84_sample_kept_partition :
    (∀ {σ : Type} (R : RNGOps σ) (a b : List Nat) (sS : Nat) (s0 : σ) (thr : ℚ)
      (kept : List Nat) (q : ℚ) (si ki : List Nat) (s1 : σ),
      (∀ i ∈ (R.choice s0 a.length sS).1, i < a.length) →
      sample_and_verify R a b sS s0 thr = .ok ((kept, q, si, ki), s1) →
      (∀ i, ¬ (i ∈ si ∧ i ∈ ki)) ∧ (∀ i, i < a.length ↔ (i ∈ si ∨ i ∈ ki))) ∧
    (∀ {σ : Type} (R : RNGOps σ) (n s : Int) (seed : Option Int) (batch : Int)
      (tag : String) (aerEx rtEx : Executor) (thr : ℚ) (fuel : Nat)
      (res : BB84Result),
      (∀ (s' : σ) (m k : Nat), k ≤ m → ∀ i ∈ (R.choice s' m k).1, i < m) →
      okOf (BB84 R n s seed batch tag aerEx rtEx thr fuel) = some res →
      (∀ i, ¬ (i ∈ res.sample_indices ∧ i ∈ res.kept_indices)) ∧
      (∀ i ∈ res.sample_indices, i < res.sifted_size_before_sample) ∧
      (∀ i ∈ res.kept_indices, i < res.sifted_size_before_sample)) := by
  constructor
  · intro σ R a b sS s0 thr kept q si ki s1 hchoice hok
    obtain ⟨hsi, hs1, hlen, hs0, hq, hthr, hki, hkept⟩ := sample_and_verify_ok hok
    subst hsi
    subst hki
    constructor
    · intro i hi
      rw [mem_mask_kept_iff] at hi
      exact hi.2.2 hi.1
    · intro i
      constructor
      · intro hi
        by_cases hmem : i ∈ (R.choice s0 a.length sS).1
        · exact Or.inl hmem
        · exact Or.inr ((mem_mask_kept_iff _ _ _).mpr ⟨hi, hmem⟩)
      · rintro (h | h)
        · exact hchoice i h
        · exact ((mem_mask_kept_iff _ _ _).mp h).1
  · intro σ R n s seed batch tag aerEx rtEx thr fuel res hchoice h
    unfold BB84 at h
    split at h
    · simp [okOf] at h
    · split at h
      · simp [okOf] at h
      · rename_i accA accB total s' hl
        unfold bb84Finish at h
        split at h
        · simp [okOf] at h
        · rename_i kept q si ki s1 hv
          split at h
          · simp [okOf] at h
          · simp only [okOf, Option.some.injEq] at h
            subst h
            obtain ⟨hsi, hs1, hlen, hs0, hq, hthr, hki, hkept⟩ :=
              sample_and_verify_ok hv
            subst hsi
            subst hki
            refine ⟨?_, ?_, ?_⟩
            · intro i hi
              have h2 : i ∈ (List.range accA.flatten.length).filter (fun j =>
                  ((R.choice s' accA.flatten.length s.toNat).1.foldl
                    (fun m j => m.set j false)
                    (List.replicate accA.flatten.length true)).getD j false) :=
                List.take_subset _ _ hi.2
              rw [mem_mask_kept_iff] at h2
              exact h2.2 hi.1
            · intro i hi
              exact hchoice s' accA.flatten.length s.toNat (by omega) i hi
            · intro i hi
              have h2 : i ∈ (List.range accA.flatten.length).filter (fun j =>
                  ((R.choice s' accA.flatten.length s.toNat).1.foldl
                    (fun m j => m.set j false)
                    (List.replicate accA.flatten.length true)).getD j false) :=
                List.take_subset _ _ hi
              exact ((mem_mask_kept_iff _ _ _).mp h2).1

/-- Witness for C4 (amended): concrete instances of both clauses,
from a concrete verifier success and a concrete `BB84` run. -/
theorem bb84_sample_kept_partition_witness :
    ((∀ i, ¬ (i ∈ ([0] : List Nat) ∧ i ∈ ([1] : List Nat))) ∧
      (∀ i, i < ([0, 0] : List Nat).length
        ↔ (i ∈ ([0] : List Nat) ∨ i ∈ ([1] : List Nat)))) ∧
    ((∀ i, ¬ (i ∈ ([0] : List Nat) ∧ i ∈ ([1, 2] : List Nat))) ∧
      (∀ i ∈ ([0] : List Nat), i < 4) ∧ (∀ i ∈ ([1, 2] : List Nat), i < 4)) :=
  ⟨bb84_sample_kept_partition.1 constRNG [0, 0] [0, 0] 1 0 (mkRat 2 100)
      [0] (Rat.divInt 0 1) [0] [1] 1 (by decide) (by rfl),
    bb84_sample_kept_partition.2 constRNG 2 1 none 4 "aer" noiselessEx
      noiselessEx (mkRat 2 100) 1 (⟨[0, 0], 0, 4, 4, [0], [1, 2]⟩ : BB84Result)
      (fun s' m k hkm i hi => Nat.lt_of_lt_of_le (List.mem_range.mp hi) hkm)
      (by decide)⟩

/-- C3 counterexample: with `final_key_size = 1 > 0`, `sample_size = 0 ≥ 0`
and `batch_size = 0 ≤ 0`, `BB84` does not raise the parameter-validation
error: it enters the accumulation loop, which (gaining no sifted bits
from empty batches) never terminates — in the embedding the run ends in
`fuelOut`, not `invalidParameters`. -/
theorem bb84_batch_size_not_validated_cex :
    errOf (BB84 constRNG 1 0 none 0 "aer" noiselessEx noiselessEx
        (mkRat 2 100) 5) = some PyError.fuelOut ∧
    errOf (BB84 constRNG 1 0 none 0 "aer" noiselessEx noiselessEx
        (mkRat 2 100) 5) ≠ some PyError.invalidParameters :=
  ⟨by decide, by decide⟩

/-- C3 (amended): `BB84` raises the parameter-validation error — before
any round executes, with the random source still in its freshly
initialised state — exactly when `final_key_size ≤ 0` or
`sample_size < 0` (in particular for `final_key_size = 0`);
`batch_size` is not validated: a run with `batch_size ≤ 0` passes
validation and enters the accumulation loop. -/
theorem bb84_invalid_parameters_iff {σ : Type} (R : RNGOps σ) (n s : Int)
    (seed : Option Int) (batch : Int) (tag : String) (aerEx rtEx : Executor)
    (thr : ℚ) (fuel : Nat) :
    BB84 R n s seed batch tag aerEx rtEx thr fuel
        = .error (.invalidParameters, R.init seed)
      ↔ (n ≤ 0 ∨ s < 0) := by
  constructor
  · intro h
    by_contra hv
    unfold BB84 at h
    rw [if_neg hv] at h
    rcases hl : bb84Loop R tag aerEx rtEx batch (n.toNat + s.toNat) fuel
        (R.init seed) [] [] 0 with ⟨e1, s1⟩ | ⟨⟨accA, accB, total⟩, s'⟩
    · simp only [hl] at h
      simp only [Except.error.injEq, Prod.mk.injEq] at h
      rcases bb84Loop_err_kinds R tag aerEx rtEx batch _ _ _ _ _ _ _ _ hl
        with h' | h' | h' <;> rw [h'] at h <;> simp at h
    · simp only [hl] at h
      rcases bb84Finish_err_kinds h with h' | h' | h' | h' <;> simp at h'
  · intro h
    unfold BB84
    rw [if_pos h]

/-- C2: the sample-size-zero edge case is broken in the code.  The spec
requires an `s = 0` run with a noiseless executor to succeed with
`qber_sample = 0`, but `sample_and_verify` computes
`mismatches / sample_size` without guarding the divisor, so every call
with `sample_size = 0` raises `ZeroDivisionError`; in particular the
spec's Scenario 3 run (`n = 50`, `s = 0`, noiseless executor) dies with
that error instead of returning a key. -/
theorem bb84_sample_size_zero_division :
    (∀ {σ : Type} (R : RNGOps σ) (a b : List Nat) (s0 : σ) (thr : ℚ),
      errOf (sample_and_verify R a b 0 s0 thr) = some .zeroDivision) ∧
    errOf (BB84 constRNG 50 0 none 4 "aer" noiselessEx noiselessEx
        (mkRat 2 100) 25) = some .zeroDivision := by
  constructor
  · intro σ R a b s0 thr
    simp only [sample_and_verify]
    rw [if_neg (Nat.not_lt_zero a.length)]
    simp [errOf]
  · decide

/-- C8: `BB84` is deterministic: for the same seed, the same parameters,
the same random-source implementation and pointwise-equal (deterministic)
channel executors, two runs produce identical results. -/
theorem bb84_determinism {σ : Type} (R : RNGOps σ) (n s : Int) (k : Int)
    (seed1 seed2 : Option Int) (batch : Int) (tag : String)
    (aer1 rt1 aer2 rt2 : Executor) (thr : ℚ) (fuel : Nat)
    (h1 : seed1 = some k) (h2 : seed2 = some k)
    (haer : ∀ ts, aer1 ts = aer2 ts) (hrt : ∀ ts, rt1 ts = rt2 ts) :
    BB84 R n s seed1 batch tag aer1 rt1 thr fuel
      = BB84 R n s seed2 batch tag aer2 rt2 thr fuel := by
  subst h1
  subst h2
  have ha : aer1 = aer2 := funext haer
  have hr : rt1 = rt2 := funext hrt
  rw [ha, hr]

/-- Witness for C8 at a concrete seed, parameters and executor. -/
theorem bb84_determinism_witness :
    BB84 constRNG 2 1 (some 42) 4 "aer" noiselessEx noiselessEx
        (mkRat 2 100) 1
      = BB84 constRNG 2 1 (some 42) 4 "aer" noiselessEx noiselessEx
        (mkRat 2 100) 1 :=
  bb84_determinism constRNG 2 1 42 (some 42) (some 42) 4 "aer"
    noiselessEx noiselessEx noiselessEx noiselessEx (mkRat 2 100) 1
    rfl rfl (fun _ => rfl) (fun _ => rfl)

/-- C9: for any executor tag whose lowercasing is neither "aer" nor
"runtime", a `BB84` call with otherwise valid parameters raises the
executor `ValueError` — and it does so only after the first round's raw
bits and both basis arrays have been drawn: the generator state carried
by the error is the initial state advanced by exactly those three draws,
so the check is not part of the pre-round parameter validation. -/
theorem bb84_unknown_executor_raises_after_draws {σ : Type} (R : RNGOps σ)
    (n s : Int) (seed : Option Int) (batch : Int) (tag : String)
    (aerEx rtEx : Executor) (thr : ℚ) (fuel : Nat)
    (hn : 0 < n) (hs : 0 ≤ s) (hb : 0 ≤ batch) (hf : 1 ≤ fuel)
    (ht1 : pyLower tag ≠ "aer".data) (ht2 : pyLower tag ≠ "runtime".data) :
    BB84 R n s seed batch tag aerEx rtEx thr fuel
      = .error (.badExecutor,
          (R.randBases ((R.randBases ((R.randBits (R.init seed) batch.toNat).2)
            batch.toNat).2) batch.toNat).2) := by
  obtain ⟨fuel, rfl⟩ : ∃ f, fuel = f + 1 := ⟨fuel - 1, by omega⟩
  have hd : ∀ triples, dispatchExecutor tag aerEx rtEx triples = none := by
    intro triples
    unfold dispatchExecutor
    rw [if_neg ht1, if_neg ht2]
  unfold BB84
  rw [if_neg (by omega)]
  simp only [bb84Loop]
  rw [if_neg (by omega : ¬ batch < 0), hd]

/-- Witness for C9: the tag "ion" with the counter-state random source;
the error carries state 12 = three draws of size 4 past the initial
state 0. -/
theorem bb84_unknown_executor_raises_after_draws_witness :
    BB84 constRNG 1 0 none 4 "ion" noiselessEx noiselessEx (mkRat 2 100) 1
      = .error (.badExecutor, 12) :=
  bb84_unknown_executor_raises_after_draws constRNG 1 0 none 4 "ion"
    noiselessEx noiselessEx (mkRat 2 100) 1 (by decide) (by decide)
    (by decide) (by decide) (by decide) (by decide)

/-- Witness for C6 at a concrete input where the sample QBER equals the
threshold (both 1), so the run succeeds: the boundary case. -/
theorem qber_threshold_enforcement_witness :
    ((1 : Nat) ≤ ([0, 0] : List Nat).length ∧ (1 : Nat) ≠ 0) ∧
    ((errOf (sample_and_verify constRNG [0, 0] [1, 0] 1 0 (mkRat 1 1))
        = some .qberTooHigh
       ↔ mkRat 1 1 < Rat.divInt
            (((constRNG.choice 0 ([0, 0] : List Nat).length 1).1.filter
               (fun i => !(([0, 0] : List Nat).getD i 0
                  == ([1, 0] : List Nat).getD i 0))).length) 1) ∧
      (Rat.divInt
            (((constRNG.choice 0 ([0, 0] : List Nat).length 1).1.filter
               (fun i => !(([0, 0] : List Nat).getD i 0
                  == ([1, 0] : List Nat).getD i 0))).length) 1 ≤ mkRat 1 1 →
        ∃ v s1, sample_and_verify constRNG [0, 0] [1, 0] 1 0 (mkRat 1 1)
          = .ok (v, s1)) ∧
      (∀ (n total : Nat),
        errOf (sample_and_verify constRNG [0, 0] [1, 0] 1 0 (mkRat 1 1))
          = some .qberTooHigh →
        errOf (bb84Finish constRNG n 1 (mkRat 1 1) [0, 0] [1, 0] total 0)
          = some .qberTooHigh)) :=
  ⟨⟨by decide, by decide⟩,
    qber_threshold_enforcement constRNG [0, 0] [1, 0] 1 0 (mkRat 1 1)
      (by decide) (by decide)⟩
